import Mathlib

/-!
Verification development for the Substrack subscription tracker.

The definitions below are shallow embeddings of the TypeScript source:
* `src/constants/subscription-statuses.ts` (status policy),
* `src/components/DashboardStats.tsx` (monthly/yearly totals),
* `src/components/ExpenseChart.tsx` (category breakdown, top-by-cost chart,
  and the subscriptions API route handlers bundled in the same file),
* `src/components/UpcomingReminders.tsx` (due-soon/overdue partitioning),
* the currency formatting module (`formatCurrency`).

Modelling conventions:
* JS numbers are modelled as exact rationals (`ℚ`); the analytics code only
  adds, divides by the constants 3/12 and multiplies by 4/12.
* Calendar dates are modelled at day granularity as `Int` epoch-day numbers:
  the reminder component zeroes the time-of-day on both sides before taking
  `Math.ceil` of an exact multiple of 86 400 000 ms, so the day difference is
  the exact integer difference of the two day numbers.
* JSON body fields are `Option`-encoded: an outer `none` is an absent
  (`undefined`) field.  Where the handler distinguishes `null` or non-string
  values, a dedicated `JsField` type is used.  `parseFloat`/`new Date` results
  are supplied as part of the input (`none` = `NaN` / invalid date), since the
  handlers only branch on parse success and on the parsed value.
-/

namespace Substrack

/-- JS `String.prototype.trim()`: strip leading and trailing whitespace,
modelled over the character list (Lean's built-in `String.trim` is
well-founded-recursive and does not evaluate in the kernel). -/
def jsTrim (s : String) : String :=
  ⟨((s.data.dropWhile Char.isWhitespace).reverse.dropWhile Char.isWhitespace).reverse⟩

/-- JS `String.prototype.toLowerCase()` over the character list. -/
def jsToLower (s : String) : String :=
  ⟨s.data.map Char.toLower⟩

/-- JS `String.prototype.toUpperCase()` over the character list. -/
def jsToUpper (s : String) : String :=
  ⟨s.data.map Char.toUpper⟩

/-! ### StatusPolicy — `src/constants/subscription-statuses.ts` -/

/-- The `SUBSCRIPTION_STATUS_OPTIONS` array: `(value, label)` pairs. -/
def SUBSCRIPTION_STATUS_OPTIONS : List (String × String) :=
  [("active", "Active"), ("paused", "Paused"), ("cancelled", "Cancelled"),
   ("trial", "Trial"), ("expired", "Expired")]

/-- The status value enum, in the order of the options array. -/
def SUBSCRIPTION_STATUS_VALUES : List String :=
  SUBSCRIPTION_STATUS_OPTIONS.map Prod.fst

/-- Statuses whose records count toward spend totals. -/
def CHARGEABLE_SUBSCRIPTION_STATUSES : List String :=
  ["active", "trial"]

/-- `SUBSCRIPTION_STATUS_LABELS[value]`; the source object is only ever
indexed with valid status values, so the fallback for unknown keys
(`undefined` in JS) is modelled as the empty string. -/
def SUBSCRIPTION_STATUS_LABELS (value : String) : String :=
  (((SUBSCRIPTION_STATUS_OPTIONS.find? (fun o => o.1 == value))).map Prod.snd).getD ""

/-- The `SUBSCRIPTION_STATUS_TRANSITIONS` record: allow-list of next statuses
per current status; `none` models an absent key (unknown status). -/
def SUBSCRIPTION_STATUS_TRANSITIONS (current : String) : Option (List String) :=
  if current = "trial" then some ["active", "cancelled"]
  else if current = "active" then some ["paused", "cancelled", "expired"]
  else if current = "paused" then some ["cancelled", "expired"]
  else if current = "cancelled" then some ["expired"]
  else if current = "expired" then some ["cancelled"]
  else none

/-- `canTransitionSubscriptionStatus(current, next)`:
`current === next || SUBSCRIPTION_STATUS_TRANSITIONS[current]?.includes(next) === true`.
The optional chaining yields `undefined` (hence `false` after `=== true`)
for an unknown `current`, modelled by `Option.map` plus `getD false`. -/
def canTransitionSubscriptionStatus (current next : String) : Bool :=
  current == next ||
    (((SUBSCRIPTION_STATUS_TRANSITIONS current).map
        (fun allowed => allowed.contains next)).getD false)

/-- `getPermittedStatusOptions(current?)`: the full enum when `current` is
absent, otherwise `[current, ...allowlist(current)]`. -/
def getPermittedStatusOptions (current : Option String) : List String :=
  match current with
  | none => SUBSCRIPTION_STATUS_VALUES
  | some c => c :: ((SUBSCRIPTION_STATUS_TRANSITIONS c).getD [])

/-- `isValidSubscriptionStatus(value)`: membership in the value enum. -/
def isValidSubscriptionStatus (value : String) : Bool :=
  SUBSCRIPTION_STATUS_VALUES.contains value

/-- `normalizeStatus` from the API route: trim, lowercase, then validate. -/
def normalizeStatus (value : String) : Option String :=
  let normalized := jsToLower (jsTrim value)
  if isValidSubscriptionStatus normalized then some normalized else none

/-- `STATUS_OPTIONS_LABEL`: the labels joined with a comma. -/
def STATUS_OPTIONS_LABEL : String :=
  String.intercalate ", " (SUBSCRIPTION_STATUS_OPTIONS.map Prod.snd)

/-- The transition table of §4.1 flattened to `(current, next)` pairs; this is
the spec-side allow-list used to state claim C1 (not a source definition). -/
def transitionTablePairs : List (String × String) :=
  [("trial", "active"), ("trial", "cancelled"),
   ("active", "paused"), ("active", "cancelled"), ("active", "expired"),
   ("paused", "cancelled"), ("paused", "expired"),
   ("cancelled", "expired"), ("expired", "cancelled")]

/-! ### Subscription records as seen by the dashboard components -/

/-- The record shape consumed by `DashboardStats`, `ExpenseChart` and
`UpcomingReminders`.  `nextPaymentDate` is an epoch-day number (see header);
`category` is optional (`undefined` in JS is `none`). -/
structure Subscription where
  id : Nat
  name : String
  cost : ℚ
  billingCycle : String
  nextPaymentDate : Int
  category : Option String := none
  status : String
deriving DecidableEq

/-! ### DashboardStats — `src/components/DashboardStats.tsx` -/

/-- `subscriptions.filter(sub => CHARGEABLE_SUBSCRIPTION_STATUSES.includes(sub.status))`. -/
def chargeableSubscriptions (subs : List Subscription) : List Subscription :=
  subs.filter (fun sub => CHARGEABLE_SUBSCRIPTION_STATUSES.contains sub.status)

/-- `calculateMonthlyTotal()`: reduce over the chargeable records with the
per-cycle branches of the source. -/
def calculateMonthlyTotal (subs : List Subscription) : ℚ :=
  (chargeableSubscriptions subs).foldl
    (fun total sub =>
      if sub.billingCycle == "monthly" then total + sub.cost
      else if sub.billingCycle == "yearly" then total + sub.cost / 12
      else if sub.billingCycle == "quarterly" then total + sub.cost / 3
      else total) 0

/-- `calculateYearlyTotal()`: reduce over the chargeable records with the
per-cycle branches of the source. -/
def calculateYearlyTotal (subs : List Subscription) : ℚ :=
  (chargeableSubscriptions subs).foldl
    (fun total sub =>
      if sub.billingCycle == "monthly" then total + sub.cost * 12
      else if sub.billingCycle == "yearly" then total + sub.cost
      else if sub.billingCycle == "quarterly" then total + sub.cost * 4
      else total) 0

/-- The per-record monthly contribution of `calculateMonthlyTotal` (the spec's
`monthlyEquivalent(cost, cycle)`); an unknown cycle contributes nothing. -/
def monthlyEquivalent (cost : ℚ) (cycle : String) : ℚ :=
  if cycle == "monthly" then cost
  else if cycle == "yearly" then cost / 12
  else if cycle == "quarterly" then cost / 3
  else 0

/-- The per-record yearly contribution of `calculateYearlyTotal` (the spec's
`yearlyEquivalent(cost, cycle)`); an unknown cycle contributes nothing. -/
def yearlyEquivalent (cost : ℚ) (cycle : String) : ℚ :=
  if cycle == "monthly" then cost * 12
  else if cycle == "yearly" then cost
  else if cycle == "quarterly" then cost * 4
  else 0

/-! ### ExpenseChart — `src/components/ExpenseChart.tsx` -/

/-- `subscriptions.filter(sub => sub.status === "active")` (used both by
`ExpenseChart` and `UpcomingReminders`). -/
def activeSubscriptions (subs : List Subscription) : List Subscription :=
  subs.filter (fun sub => sub.status == "active")

/-- `convertToMonthly(cost, cycle)`; note the final branch returns `cost`
unchanged for an unknown cycle. -/
def convertToMonthly (cost : ℚ) (cycle : String) : ℚ :=
  if cycle == "monthly" then cost
  else if cycle == "yearly" then cost / 12
  else if cycle == "quarterly" then cost / 3
  else cost

/-- `sub.category || "other"`: an absent category, and the falsy empty
string, both default to `"other"`. -/
def subCategory (sub : Subscription) : String :=
  match sub.category with
  | none => "other"
  | some c => if c == "" then "other" else c

/-- Lookup in a JS object modelled as an insertion-ordered association list:
`acc[k]`, `none` when the key is absent. -/
def recordLookup (acc : List (String × ℚ)) (k : String) : Option ℚ :=
  (acc.find? (fun p => p.1 == k)).map Prod.snd

/-- Assignment `acc[k] = v` on the insertion-ordered association list:
update in place when the key exists, append otherwise. -/
def recordInsert (acc : List (String × ℚ)) (k : String) (v : ℚ) :
    List (String × ℚ) :=
  if acc.any (fun p => p.1 == k) then
    acc.map (fun p => if p.1 == k then (k, v) else p)
  else acc ++ [(k, v)]

/-- `categoryData`: reduce over the *active* records, accumulating
`acc[category] = (acc[category] || 0) + monthlyCost`. -/
def categoryData (subs : List Subscription) : List (String × ℚ) :=
  (activeSubscriptions subs).foldl
    (fun acc sub =>
      let category := subCategory sub
      let monthlyCost := convertToMonthly sub.cost sub.billingCycle
      recordInsert acc category ((recordLookup acc category).getD 0 + monthlyCost))
    []

/-- `sortedSubscriptions`: active records sorted descending by monthly cost
(the comparator `costB - costA` puts `a` before `b` iff `costB ≤ costA`;
JS `Array.prototype.sort` is stable, modelled by `mergeSort`), then
`slice(0, n)`.  The source hard-codes `n = 10`; the truncation bound is made
a parameter here, following the spec's `topByMonthlyCost(records, n)`. -/
def sortedSubscriptions (subs : List Subscription) (n : Nat) : List Subscription :=
  ((activeSubscriptions subs).mergeSort
    (fun a b =>
      decide (convertToMonthly b.cost b.billingCycle ≤
              convertToMonthly a.cost a.billingCycle))).take n

/-! ### UpcomingReminders — `src/components/UpcomingReminders.tsx` -/

/-- `getDaysUntilPayment`: both dates are zeroed to local midnight, so
`Math.ceil(diffMs / 86400000)` is the exact difference of day numbers. -/
def getDaysUntilPayment (today paymentDay : Int) : Int :=
  paymentDay - today

/-- `upcomingPayments`: active records with `0 <= days <= horizon`, sorted
ascending by payment date.  The source hard-codes `horizon = 30` and reads
`today` from the clock; both are explicit parameters here, following the
spec's `dueSoon(records, now, horizonDays)` with its explicit-now rule. -/
def upcomingPayments (subs : List Subscription) (today horizon : Int) :
    List Subscription :=
  ((activeSubscriptions subs).filter
      (fun sub =>
        let days := getDaysUntilPayment today sub.nextPaymentDate
        decide (0 ≤ days) && decide (days ≤ horizon))).mergeSort
    (fun a b => decide (a.nextPaymentDate ≤ b.nextPaymentDate))

/-- The `isDueSoon` flag applied to each rendered upcoming payment:
`daysUntil <= 7`. -/
def isDueSoon (today : Int) (sub : Subscription) : Bool :=
  decide (getDaysUntilPayment today sub.nextPaymentDate ≤ 7)

/-! ### Currency formatting module (`formatCurrency` / formatter cache) -/

/-- A JS number: an exact finite value, or one of the non-finite values. -/
inductive JSNumber where
  | finite (q : ℚ)
  | nan
  | posInf
  | negInf
deriving DecidableEq

/-- `Number.isFinite(value)`. -/
def JSNumber.isFinite : JSNumber → Bool
  | .finite _ => true
  | _ => false

/-- `value.toString()`: the JS string forms of the non-finite values are
fixed by the language; the finite form is Lean's rational rendering (the
claims only inspect the non-finite branch). -/
def JSNumber.jsToString : JSNumber → String
  | .nan => "NaN"
  | .posInf => "Infinity"
  | .negInf => "-Infinity"
  | .finite q => toString q

/-- The `localeOverrides` record of the currency module. -/
def localeOverrides (code : String) : Option String :=
  if code = "IDR" then some "id-ID"
  else if code = "JPY" then some "ja-JP"
  else if code = "CNY" then some "zh-CN"
  else if code = "KRW" then some "ko-KR"
  else if code = "THB" then some "th-TH"
  else none

/-- `resolveLocale(currencyCode)`. -/
def resolveLocale (currencyCode : String) : Option String :=
  localeOverrides currencyCode

/-- `getCacheKey(currencyCode, locale)`. -/
def getCacheKey (currencyCode : String) (locale : Option String) : String :=
  (locale.getD "default") ++ "|" ++ currencyCode

/-- The cache key under which `getCurrencyFormatterInternal` constructs or
reuses an `Intl.NumberFormat`. -/
def getCurrencyFormatterInternalKey (currencyCode : String) : String :=
  let uppercaseCode := jsToUpper currencyCode
  getCacheKey uppercaseCode (resolveLocale uppercaseCode)

/-- The observable outcome of `formatCurrency`: either a plain string that was
produced without touching the formatter cache, or the result of consulting
the cached `Intl.NumberFormat` identified by its cache key. -/
inductive FormatResult where
  | plain (s : String)
  | formatted (cacheKey : String) (value : JSNumber)
deriving DecidableEq

/-- `formatCurrency(value, currencyCode)`: non-finite values short-circuit to
`value.toString()`; finite values are sent to the cached formatter. -/
def formatCurrency (value : JSNumber) (currencyCode : String) : FormatResult :=
  if !value.isFinite then .plain value.jsToString
  else .formatted (getCurrencyFormatterInternalKey currencyCode) value

/-! ### API route — `GET/POST/PUT/DELETE` over the subscriptions table -/

/-- A stored subscription row (the drizzle `subscriptions` table).  Dates and
timestamps are kept as the strings the route stores. -/
structure DbRecord where
  id : Nat
  name : String
  cost : ℚ
  billingCycle : String
  nextPaymentDate : String
  category : Option String := none
  description : Option String := none
  status : String
  createdAt : String
  updatedAt : String
deriving DecidableEq

/-- The `{error, code}` JSON body of a failed request. -/
structure ApiError where
  error : String
  code : String
deriving DecidableEq

/-- A date-typed body field together with the outcome of `new Date(raw)`:
`parsed = none` models an invalid date (`isNaN(date.getTime())`),
`some d` a valid instant falling on epoch day `d`. -/
structure DateInput where
  raw : String
  parsed : Option Int
deriving DecidableEq

/-- A JSON field value where the handler distinguishes strings from `null`
and from other non-string values. -/
inductive JsField where
  | strVal (s : String)
  | nullVal
  | otherVal
deriving DecidableEq

/-- The parsed JSON body of a `PUT` request; every field may be absent
(`undefined`), modelled by the outer `none`.  `cost` carries its
`parseFloat` result (`some none` = present but `NaN`).  For `category` and
`description` the inner `none` is an explicit `null`. -/
structure PutBody where
  name : Option String := none
  cost : Option (Option ℚ) := none
  billingCycle : Option String := none
  nextPaymentDate : Option DateInput := none
  category : Option (Option String) := none
  description : Option (Option String) := none
  status : Option JsField := none
deriving DecidableEq

/-- The parsed JSON body of a `POST` request, with the same field encodings
as `PutBody`. -/
structure PostBody where
  name : Option String := none
  cost : Option (Option ℚ) := none
  billingCycle : Option String := none
  nextPaymentDate : Option DateInput := none
  category : Option (Option String) := none
  description : Option (Option String) := none
  status : Option JsField := none
deriving DecidableEq

/-- The field-validation chain of the `PUT` handler, applied to a copy of the
existing row (`updates` merged by `db.update(...).set(updates)`), in source
order.  `now` is `new Date().toISOString()`. -/
def putApplyUpdates (existing : DbRecord) (body : PutBody) (now : String) :
    Except ApiError DbRecord := do
  let r := { existing with updatedAt := now }
  let r ← match body.name with
    | none => pure r
    | some name =>
      if jsTrim name == "" then
        throw ⟨"Name cannot be empty", "INVALID_NAME"⟩
      else pure { r with name := jsTrim name }
  let r ← match body.cost with
    | none => pure r
    | some parsed =>
      match parsed with
      | none => throw ⟨"Cost must be a positive number", "INVALID_COST"⟩
      | some costValue =>
        if costValue ≤ 0 then
          throw ⟨"Cost must be a positive number", "INVALID_COST"⟩
        else pure { r with cost := costValue }
  let r ← match body.billingCycle with
    | none => pure r
    | some billingCycle =>
      if !(["monthly", "yearly", "quarterly"].contains billingCycle) then
        throw ⟨"Billing cycle must be one of: monthly, yearly, quarterly",
               "INVALID_BILLING_CYCLE"⟩
      else pure { r with billingCycle := jsTrim billingCycle }
  let r ← match body.nextPaymentDate with
    | none => pure r
    | some d =>
      match d.parsed with
      | none => throw ⟨"Next payment date must be a valid ISO datetime string",
                       "INVALID_NEXT_PAYMENT_DATE"⟩
      | some _ => pure { r with nextPaymentDate := jsTrim d.raw }
  let r ← match body.category with
    | none => pure r
    | some categoryVal =>
      match categoryVal with
      | some category =>
        if jsTrim category != "" then pure { r with category := some (jsTrim category) }
        else pure { r with category := none }
      | none => pure { r with category := none }
  let r ← match body.description with
    | none => pure r
    | some descriptionVal =>
      match descriptionVal with
      | some description =>
        if description != "" then pure { r with description := some (jsTrim description) }
        else pure { r with description := none }
      | none => pure { r with description := none }
  let r ← match body.status with
    | none => pure r
    | some statusVal =>
      match statusVal with
      | .nullVal => throw ⟨"Status must be a string value", "INVALID_STATUS"⟩
      | .otherVal => throw ⟨"Status must be a string value", "INVALID_STATUS"⟩
      | .strVal statusStr =>
        match normalizeStatus statusStr with
        | none =>
          throw ⟨"Status must be one of: " ++ STATUS_OPTIONS_LABEL, "INVALID_STATUS"⟩
        | some nextStatus =>
          let currentStatus := existing.status
          if !canTransitionSubscriptionStatus currentStatus nextStatus then
            let allowedStatuses := getPermittedStatusOptions (some currentStatus)
            let allowedTransitionLabels :=
              String.intercalate ", "
                ((allowedStatuses.filter (fun v => v != currentStatus)).map
                  SUBSCRIPTION_STATUS_LABELS)
            let allowedLabelText :=
              if allowedTransitionLabels == "" then
                SUBSCRIPTION_STATUS_LABELS currentStatus
              else allowedTransitionLabels
            throw ⟨"Status cannot change from " ++
                     SUBSCRIPTION_STATUS_LABELS currentStatus ++ " to " ++
                     SUBSCRIPTION_STATUS_LABELS nextStatus ++
                     ". Allowed next statuses: " ++ allowedLabelText,
                   "INVALID_STATUS_TRANSITION"⟩
          else pure { r with status := nextStatus }
  pure r

/-- The `PUT` handler from the id lookup onward (query-string parsing of the
id is elided; the claims concern body validation and persistence).  Returns
the table after the request together with the JSON outcome. -/
def putSubscription (store : List DbRecord) (id : Nat) (body : PutBody)
    (now : String) : List DbRecord × Except ApiError DbRecord :=
  match store.find? (fun r => r.id == id) with
  | none => (store, .error ⟨"Subscription not found", "NOT_FOUND"⟩)
  | some existing =>
    match putApplyUpdates existing body now with
    | .error e => (store, .error e)
    | .ok updated =>
      (store.map (fun r => if r.id == id then updated else r), .ok updated)

/-- The validation chain of the `POST` handler, in source order, producing
the row to insert (without its id). -/
def validatePostBody (body : PostBody) (now : String) :
    Except ApiError (Nat → DbRecord) := do
  let name ← match body.name with
    | none => throw ⟨"Name is required", "MISSING_NAME"⟩
    | some name =>
      if jsTrim name == "" then throw ⟨"Name is required", "MISSING_NAME"⟩
      else pure name
  let costRaw ← match body.cost with
    | none => throw ⟨"Cost is required", "MISSING_COST"⟩
    | some c => pure c
  let billingCycle ← match body.billingCycle with
    | none => throw ⟨"Billing cycle is required", "MISSING_BILLING_CYCLE"⟩
    | some billingCycle =>
      if jsTrim billingCycle == "" then
        throw ⟨"Billing cycle is required", "MISSING_BILLING_CYCLE"⟩
      else pure billingCycle
  let nextPaymentDate ← match body.nextPaymentDate with
    | none => throw ⟨"Next payment date is required", "MISSING_NEXT_PAYMENT_DATE"⟩
    | some d =>
      if jsTrim d.raw == "" then
        throw ⟨"Next payment date is required", "MISSING_NEXT_PAYMENT_DATE"⟩
      else pure d
  let costValue ← match costRaw with
    | none => throw ⟨"Cost must be a positive number", "INVALID_COST"⟩
    | some v =>
      if v ≤ 0 then throw ⟨"Cost must be a positive number", "INVALID_COST"⟩
      else pure v
  let _ ← if !(["monthly", "yearly", "quarterly"].contains billingCycle) then
      throw (⟨"Billing cycle must be one of: monthly, yearly, quarterly",
              "INVALID_BILLING_CYCLE"⟩ : ApiError)
    else pure ()
  let _ ← match nextPaymentDate.parsed with
    | none => throw (⟨"Next payment date must be a valid ISO datetime string",
                      "INVALID_NEXT_PAYMENT_DATE"⟩ : ApiError)
    | some _ => pure ()
  let normalizedStatus ← match body.status with
    | none => pure "active"
    | some .nullVal => pure "active"
    | some .otherVal => throw ⟨"Status must be a string value", "INVALID_STATUS"⟩
    | some (.strVal s) =>
      match normalizeStatus s with
      | none =>
        throw ⟨"Status must be one of: " ++ STATUS_OPTIONS_LABEL, "INVALID_STATUS"⟩
      | some nextStatus => pure nextStatus
  let categoryField :=
    match body.category with
    | some (some category) =>
      if jsTrim category != "" then some (jsTrim category) else none
    | _ => none
  let descriptionField :=
    match body.description with
    | some (some description) =>
      if description != "" then some (jsTrim description) else none
    | _ => none
  pure (fun newId =>
    { id := newId
      name := jsTrim name
      cost := costValue
      billingCycle := jsTrim billingCycle
      nextPaymentDate := jsTrim nextPaymentDate.raw
      category := categoryField
      description := descriptionField
      status := normalizedStatus
      createdAt := now
      updatedAt := now })

/-- The `POST` handler: validate, then insert.  `newId` is the id the
autoincrementing storage assigns (id assignment belongs to the storage
collaborator).  Returns the table after the request and the JSON outcome. -/
def postSubscription (store : List DbRecord) (body : PostBody) (now : String)
    (newId : Nat) : List DbRecord × Except ApiError DbRecord :=
  match validatePostBody body now with
  | .error e => (store, .error e)
  | .ok mk => (store ++ [mk newId], .ok (mk newId))

/-! ## Theorems -/

/-- Claim C4: for every cost and every billing cycle in
{monthly, quarterly, yearly}, `yearlyEquivalent(cost, cycle)` equals
`12 * monthlyEquivalent(cost, cycle)`, and the two normalizations take the
values `cost`, `cost/3`, `cost/12` and `cost*12`, `cost*4`, `cost`
respectively. -/
theorem c4_yearly_eq_twelve_times_monthly (cost : ℚ) :
    yearlyEquivalent cost "monthly" = 12 * monthlyEquivalent cost "monthly" ∧
    yearlyEquivalent cost "quarterly" = 12 * monthlyEquivalent cost "quarterly" ∧
    yearlyEquivalent cost "yearly" = 12 * monthlyEquivalent cost "yearly" ∧
    monthlyEquivalent cost "monthly" = cost ∧
    monthlyEquivalent cost "quarterly" = cost / 3 ∧
    monthlyEquivalent cost "yearly" = cost / 12 ∧
    yearlyEquivalent cost "monthly" = cost * 12 ∧
    yearlyEquivalent cost "quarterly" = cost * 4 ∧
    yearlyEquivalent cost "yearly" = cost := by
  refine ⟨?_, ?_, ?_, ?_, ?_, ?_, ?_, ?_, ?_⟩ <;>
    simp [monthlyEquivalent, yearlyEquivalent] <;> ring

/-- Claim C10: for every non-finite numeric input and every currency code,
`formatCurrency` returns the plain `value.toString()` string without
constructing or consulting any currency formatter (the result is `plain`,
never `formatted`); in the model the non-finite numbers are exactly
`nan`, `posInf` and `negInf`, and the function is total on all of
`JSNumber`. -/
theorem c10_formatCurrency_nonfinite_plain (currencyCode : String) :
    formatCurrency JSNumber.nan currencyCode = FormatResult.plain "NaN" ∧
    formatCurrency JSNumber.posInf currencyCode = FormatResult.plain "Infinity" ∧
    formatCurrency JSNumber.negInf currencyCode = FormatResult.plain "-Infinity" ∧
    (∀ v : JSNumber, v.isFinite = false →
      formatCurrency v currencyCode = FormatResult.plain v.jsToString) := by
  refine ⟨rfl, rfl, rfl, ?_⟩
  intro v hv
  simp [formatCurrency, hv]

/-- Claim C1 (counterexample): the claim asserts that `canTransition` returns
false whenever either argument is an unknown status, but for an unknown
status equal to itself the `current === next` short-circuit fires first and
the function returns true. -/
theorem c1_counterexample_unknown_self_transition :
    canTransitionSubscriptionStatus "bogus" "bogus" = true := by decide

/-- Claim C1 (amended): `canTransition(current, next)` returns true iff
`next == current` or `(current, next)` is in the transition table
(trial → active/cancelled; active → paused/cancelled/expired;
paused → cancelled/expired; cancelled → expired; expired → cancelled).
Consequently every pair outside the table with `current ≠ next` returns
false — including every pair with an unknown status and `current ≠ next` —
while `current = next` returns true even for unknown statuses. -/
theorem c1_canTransition_iff_self_or_table (current next : String) :
    canTransitionSubscriptionStatus current next = true ↔
      (current = next ∨ (current, next) ∈ transitionTablePairs) := by
  by_cases h1 : current = "trial"
  · subst h1
    simp [canTransitionSubscriptionStatus, SUBSCRIPTION_STATUS_TRANSITIONS,
      transitionTablePairs, Prod.mk.injEq]
  by_cases h2 : current = "active"
  · subst h2
    simp [canTransitionSubscriptionStatus, SUBSCRIPTION_STATUS_TRANSITIONS,
      transitionTablePairs, Prod.mk.injEq]
  by_cases h3 : current = "paused"
  · subst h3
    simp [canTransitionSubscriptionStatus, SUBSCRIPTION_STATUS_TRANSITIONS,
      transitionTablePairs, Prod.mk.injEq]
  by_cases h4 : current = "cancelled"
  · subst h4
    simp [canTransitionSubscriptionStatus, SUBSCRIPTION_STATUS_TRANSITIONS,
      transitionTablePairs, Prod.mk.injEq]
  by_cases h5 : current = "expired"
  · subst h5
    simp [canTransitionSubscriptionStatus, SUBSCRIPTION_STATUS_TRANSITIONS,
      transitionTablePairs, Prod.mk.injEq]
  · simp [canTransitionSubscriptionStatus, SUBSCRIPTION_STATUS_TRANSITIONS,
      transitionTablePairs, Prod.mk.injEq, h1, h2, h3, h4, h5]

/-- A single permitted transition out of a non-chargeable status lands in a
non-chargeable status: the transition table only offers `active` from
`trial`, and `trial` from nowhere. -/
theorem step_preserves_nonchargeable {a b : String}
    (hab : canTransitionSubscriptionStatus a b = true)
    (ha1 : a ≠ "active") (ha2 : a ≠ "trial") :
    b ≠ "active" ∧ b ≠ "trial" := by
  by_cases h1 : a = "trial"
  · exact absurd h1 ha2
  by_cases h2 : a = "active"
  · exact absurd h2 ha1
  by_cases h3 : a = "paused"
  · subst h3
    simp [canTransitionSubscriptionStatus, SUBSCRIPTION_STATUS_TRANSITIONS] at hab
    rcases hab with hab | hab | hab <;> subst hab <;> exact ⟨by decide, by decide⟩
  by_cases h4 : a = "cancelled"
  · subst h4
    simp [canTransitionSubscriptionStatus, SUBSCRIPTION_STATUS_TRANSITIONS] at hab
    rcases hab with hab | hab <;> subst hab <;> exact ⟨by decide, by decide⟩
  by_cases h5 : a = "expired"
  · subst h5
    simp [canTransitionSubscriptionStatus, SUBSCRIPTION_STATUS_TRANSITIONS] at hab
    rcases hab with hab | hab <;> subst hab <;> exact ⟨by decide, by decide⟩
  · simp [canTransitionSubscriptionStatus, SUBSCRIPTION_STATUS_TRANSITIONS,
      h1, h2, h3, h4, h5] at hab
    subst hab
    exact ⟨ha1, ha2⟩

/-- Claim C9: under the step relation defined by
`canTransitionSubscriptionStatus`, chargeability is never regained — for
every status `s` that is neither `active` nor `trial` and every finite
sequence of transitions each permitted from its predecessor and starting at
`s`, no status in the sequence is `active` or `trial`. -/
theorem c9_chargeability_never_regained (s : String) (seq : List String)
    (hchain : List.Chain (fun a b => canTransitionSubscriptionStatus a b = true) s seq)
    (hs1 : s ≠ "active") (hs2 : s ≠ "trial") :
    ∀ t ∈ s :: seq, t ≠ "active" ∧ t ≠ "trial" := by
  induction seq generalizing s with
  | nil =>
    intro t ht
    simp only [List.mem_singleton] at ht
    subst ht
    exact ⟨hs1, hs2⟩
  | cons b rest ih =>
    cases hchain with
    | cons hstep hrest =>
      have hb := step_preserves_nonchargeable hstep hs1 hs2
      intro t ht
      rcases List.mem_cons.mp ht with ht | ht
      · subst ht; exact ⟨hs1, hs2⟩
      · exact ih b hrest hb.1 hb.2 t ht

/-- Witness for C9: a concrete permitted chain
`paused → cancelled → expired → cancelled` starting outside the chargeable
set stays outside it. -/
theorem c9_witness :
    List.Chain (fun a b => canTransitionSubscriptionStatus a b = true)
      "paused" ["cancelled", "expired", "cancelled"] ∧
    (∀ t ∈ ["paused", "cancelled", "expired", "cancelled"],
      t ≠ "active" ∧ t ≠ "trial") :=
  ⟨List.Chain.cons (by decide)
     (List.Chain.cons (by decide) (List.Chain.cons (by decide) List.Chain.nil)),
   c9_chargeability_never_regained "paused" ["cancelled", "expired", "cancelled"]
     (List.Chain.cons (by decide)
       (List.Chain.cons (by decide) (List.Chain.cons (by decide) List.Chain.nil)))
     (by decide) (by decide)⟩

/-- A chargeable status is never one of the removed statuses, so the
chargeable filter absorbs the removal filter. -/
theorem chargeable_and_keep (st : String) :
    ((CHARGEABLE_SUBSCRIPTION_STATUSES.contains st) &&
      !(["paused", "cancelled", "expired"].contains st))
      = CHARGEABLE_SUBSCRIPTION_STATUSES.contains st := by
  by_cases hA : st = "active"
  · subst hA; decide
  · by_cases hT : st = "trial"
    · subst hT; decide
    · have h : CHARGEABLE_SUBSCRIPTION_STATUSES.contains st = false := by
        simp [CHARGEABLE_SUBSCRIPTION_STATUSES, hA, hT]
      rw [h]
      simp

/-- The active-only filter likewise absorbs the removal filter. -/
theorem active_and_keep (st : String) :
    ((st == "active") && !(["paused", "cancelled", "expired"].contains st))
      = (st == "active") := by
  cases ha : (st == "active") with
  | false => simp
  | true =>
    have h : st = "active" := by simpa using ha
    subst h; decide

/-- Removing the non-chargeable records does not change the chargeable
sublist. -/
theorem chargeableSubscriptions_filter_keep (subs : List Subscription) :
    chargeableSubscriptions
      (subs.filter (fun s => !(["paused", "cancelled", "expired"].contains s.status)))
      = chargeableSubscriptions subs := by
  unfold chargeableSubscriptions
  rw [List.filter_filter]
  apply List.filter_congr
  intro a _
  exact chargeable_and_keep a.status

/-- Removing the non-chargeable records does not change the active sublist. -/
theorem activeSubscriptions_filter_keep (subs : List Subscription) :
    activeSubscriptions
      (subs.filter (fun s => !(["paused", "cancelled", "expired"].contains s.status)))
      = activeSubscriptions subs := by
  unfold activeSubscriptions
  rw [List.filter_filter]
  apply List.filter_congr
  intro a _
  exact active_and_keep a.status

/-- Claim C5: records with status paused, cancelled or expired contribute
nothing to `monthlyTotal`, `yearlyTotal` or `categoryBreakdown` — removing
all such records from the input leaves all three results unchanged. -/
theorem c5_nonchargeable_removal_invariant (subs : List Subscription) :
    calculateMonthlyTotal
        (subs.filter (fun s => !(["paused", "cancelled", "expired"].contains s.status)))
      = calculateMonthlyTotal subs ∧
    calculateYearlyTotal
        (subs.filter (fun s => !(["paused", "cancelled", "expired"].contains s.status)))
      = calculateYearlyTotal subs ∧
    categoryData
        (subs.filter (fun s => !(["paused", "cancelled", "expired"].contains s.status)))
      = categoryData subs := by
  refine ⟨?_, ?_, ?_⟩
  · simp only [calculateMonthlyTotal, chargeableSubscriptions_filter_keep]
  · simp only [calculateYearlyTotal, chargeableSubscriptions_filter_keep]
  · simp only [categoryData, activeSubscriptions_filter_keep]

/-- The reduce step of `calculateMonthlyTotal` adds exactly
`monthlyEquivalent` of the record. -/
theorem monthlyStep_eq :
    (fun (total : ℚ) (sub : Subscription) =>
      if sub.billingCycle == "monthly" then total + sub.cost
      else if sub.billingCycle == "yearly" then total + sub.cost / 12
      else if sub.billingCycle == "quarterly" then total + sub.cost / 3
      else total)
    = fun (total : ℚ) (sub : Subscription) =>
        total + monthlyEquivalent sub.cost sub.billingCycle := by
  funext t s
  simp only [monthlyEquivalent]
  cases hm : s.billingCycle == "monthly" <;>
    cases hy : s.billingCycle == "yearly" <;>
      cases hq : s.billingCycle == "quarterly" <;> simp [hm, hy, hq]

/-- The reduce step of `calculateYearlyTotal` adds exactly
`yearlyEquivalent` of the record. -/
theorem yearlyStep_eq :
    (fun (total : ℚ) (sub : Subscription) =>
      if sub.billingCycle == "monthly" then total + sub.cost * 12
      else if sub.billingCycle == "yearly" then total + sub.cost
      else if sub.billingCycle == "quarterly" then total + sub.cost * 4
      else total)
    = fun (total : ℚ) (sub : Subscription) =>
        total + yearlyEquivalent sub.cost sub.billingCycle := by
  funext t s
  simp only [yearlyEquivalent]
  cases hm : s.billingCycle == "monthly" <;>
    cases hy : s.billingCycle == "yearly" <;>
      cases hq : s.billingCycle == "quarterly" <;> simp [hm, hy, hq]

/-- The monthly-total fold is the sum of the per-record monthly equivalents. -/
theorem foldl_monthlyEquivalent_eq_sum (l : List Subscription) (a : ℚ) :
    l.foldl (fun t x => t + monthlyEquivalent x.cost x.billingCycle) a =
      a + (l.map (fun x => monthlyEquivalent x.cost x.billingCycle)).sum := by
  induction l generalizing a with
  | nil => simp
  | cons x l ih =>
    simp only [List.foldl_cons, List.map_cons, List.sum_cons]
    rw [ih]
    ring

/-- The yearly-total fold is the sum of the per-record yearly equivalents. -/
theorem foldl_yearlyEquivalent_eq_sum (l : List Subscription) (a : ℚ) :
    l.foldl (fun t x => t + yearlyEquivalent x.cost x.billingCycle) a =
      a + (l.map (fun x => yearlyEquivalent x.cost x.billingCycle)).sum := by
  induction l generalizing a with
  | nil => simp
  | cons x l ih =>
    simp only [List.foldl_cons, List.map_cons, List.sum_cons]
    rw [ih]
    ring

/-- `calculateMonthlyTotal` is the sum of monthly equivalents over the
chargeable records. -/
theorem calculateMonthlyTotal_eq_sum (subs : List Subscription) :
    calculateMonthlyTotal subs =
      ((chargeableSubscriptions subs).map
        (fun x => monthlyEquivalent x.cost x.billingCycle)).sum := by
  simp only [calculateMonthlyTotal, monthlyStep_eq]
  rw [foldl_monthlyEquivalent_eq_sum]
  ring

/-- `calculateYearlyTotal` is the sum of yearly equivalents over the
chargeable records. -/
theorem calculateYearlyTotal_eq_sum (subs : List Subscription) :
    calculateYearlyTotal subs =
      ((chargeableSubscriptions subs).map
        (fun x => yearlyEquivalent x.cost x.billingCycle)).sum := by
  simp only [calculateYearlyTotal, yearlyStep_eq]
  rw [foldl_yearlyEquivalent_eq_sum]
  ring

/-- Claim C2 (counterexample): a record with status trial does not contribute
its monthly-equivalent cost to the category breakdown — `categoryData` only
folds over records with status exactly `"active"`, so a single trial record
yields an empty breakdown with no entry for its category. -/
theorem c2_counterexample_trial_excluded_from_category_breakdown :
    categoryData [⟨1, "Spotify", 10, "monthly", 0, some "music", "trial"⟩] = [] ∧
    recordLookup
      (categoryData [⟨1, "Spotify", 10, "monthly", 0, some "music", "trial"⟩])
      "music" = none := by
  exact ⟨rfl, rfl⟩

/-- Claim C2 (amended): the chargeable filter {active, trial} governs the
monthly and yearly totals, so a trial record adds its monthly-equivalent
(resp. yearly-equivalent) cost there; but `categoryBreakdown` filters on
status `"active"` only, so a trial record contributes nothing to it. -/
theorem c2_trial_in_totals_not_in_category_breakdown
    (subs : List Subscription) (s : Subscription) (h : s.status = "trial") :
    categoryData (s :: subs) = categoryData subs ∧
    calculateMonthlyTotal (s :: subs)
      = monthlyEquivalent s.cost s.billingCycle + calculateMonthlyTotal subs ∧
    calculateYearlyTotal (s :: subs)
      = yearlyEquivalent s.cost s.billingCycle + calculateYearlyTotal subs := by
  have hact : activeSubscriptions (s :: subs) = activeSubscriptions subs := by
    simp [activeSubscriptions, List.filter_cons, h]
  have hch : chargeableSubscriptions (s :: subs) = s :: chargeableSubscriptions subs := by
    simp [chargeableSubscriptions, List.filter_cons, h, CHARGEABLE_SUBSCRIPTION_STATUSES]
  refine ⟨by simp only [categoryData, hact], ?_, ?_⟩
  · rw [calculateMonthlyTotal_eq_sum, calculateMonthlyTotal_eq_sum, hch,
      List.map_cons, List.sum_cons]
  · rw [calculateYearlyTotal_eq_sum, calculateYearlyTotal_eq_sum, hch,
      List.map_cons, List.sum_cons]

/-- Witness for C2 (amended): a concrete trial record is excluded from the
category breakdown but adds its cost to the monthly total. -/
theorem c2_witness :
    categoryData [⟨2, "Figma", 12, "monthly", 0, some "design", "trial"⟩]
        = categoryData [] ∧
    calculateMonthlyTotal [⟨2, "Figma", 12, "monthly", 0, some "design", "trial"⟩]
        = monthlyEquivalent 12 "monthly" + calculateMonthlyTotal [] ∧
    calculateYearlyTotal [⟨2, "Figma", 12, "monthly", 0, some "design", "trial"⟩]
        = yearlyEquivalent 12 "monthly" + calculateYearlyTotal [] :=
  c2_trial_in_totals_not_in_category_breakdown []
    ⟨2, "Figma", 12, "monthly", 0, some "design", "trial"⟩ rfl

/-- The ascending payment-date comparator is transitive. -/
theorem dateLe_trans : ∀ (a b c : Subscription),
    decide (a.nextPaymentDate ≤ b.nextPaymentDate) = true →
    decide (b.nextPaymentDate ≤ c.nextPaymentDate) = true →
    decide (a.nextPaymentDate ≤ c.nextPaymentDate) = true := by
  intro a b c hab hbc
  simp only [decide_eq_true_eq] at *
  omega

/-- The ascending payment-date comparator is total. -/
theorem dateLe_total : ∀ (a b : Subscription),
    (decide (a.nextPaymentDate ≤ b.nextPaymentDate) ||
     decide (b.nextPaymentDate ≤ a.nextPaymentDate)) = true := by
  intro a b
  simp only [Bool.or_eq_true, decide_eq_true_eq]
  exact Int.le_total _ _

/-- Claim C7: `upcomingPayments(records, now, horizonDays)` contains exactly
the records with status active whose day-granularity `daysUntil` lies in
`[0, horizonDays]`, is sorted ascending by payment date, and exactly the
members with `daysUntil ≤ 7` are flagged urgent (`isDueSoon`); in
particular with now = 2024-01-01 (epoch day 19723) and horizonDays = 7, a
record dated 2024-01-05 (epoch day 19727) is included and one dated
2024-01-10 (epoch day 19732) is excluded. -/
theorem c7_upcoming_payments_characterization :
    (∀ (subs : List Subscription) (today horizon : Int),
      (∀ r : Subscription,
        r ∈ upcomingPayments subs today horizon ↔
          (r ∈ subs ∧ r.status = "active" ∧
            0 ≤ getDaysUntilPayment today r.nextPaymentDate ∧
            getDaysUntilPayment today r.nextPaymentDate ≤ horizon)) ∧
      (upcomingPayments subs today horizon).Pairwise
        (fun a b => a.nextPaymentDate ≤ b.nextPaymentDate) ∧
      (∀ r : Subscription, isDueSoon today r = true ↔
        getDaysUntilPayment today r.nextPaymentDate ≤ 7)) ∧
    ((⟨1, "A", 10, "monthly", 19727, none, "active"⟩ : Subscription) ∈
      upcomingPayments
        [⟨1, "A", 10, "monthly", 19727, none, "active"⟩,
         ⟨2, "B", 10, "monthly", 19732, none, "active"⟩] 19723 7) ∧
    ((⟨2, "B", 10, "monthly", 19732, none, "active"⟩ : Subscription) ∉
      upcomingPayments
        [⟨1, "A", 10, "monthly", 19727, none, "active"⟩,
         ⟨2, "B", 10, "monthly", 19732, none, "active"⟩] 19723 7) := by
  have hmem : ∀ (subs : List Subscription) (today horizon : Int) (r : Subscription),
      r ∈ upcomingPayments subs today horizon ↔
        (r ∈ subs ∧ r.status = "active" ∧
          0 ≤ getDaysUntilPayment today r.nextPaymentDate ∧
          getDaysUntilPayment today r.nextPaymentDate ≤ horizon) := by
    intro subs today horizon r
    simp only [upcomingPayments, activeSubscriptions, getDaysUntilPayment,
      List.mem_mergeSort, List.mem_filter, Bool.and_eq_true, decide_eq_true_eq,
      beq_iff_eq]
    tauto
  refine ⟨fun subs today horizon => ⟨hmem subs today horizon, ?_, ?_⟩, ?_, ?_⟩
  · have hs := List.sorted_mergeSort dateLe_trans dateLe_total
      ((activeSubscriptions subs).filter
        (fun sub =>
          let days := getDaysUntilPayment today sub.nextPaymentDate
          decide (0 ≤ days) && decide (days ≤ horizon)))
    exact hs.imp (fun h => by simpa using h)
  · intro r
    simp [isDueSoon]
  · exact (hmem _ 19723 7 _).mpr ⟨by simp, rfl, by decide, by decide⟩
  · intro hmem2
    have h := (hmem _ 19723 7 _).mp hmem2
    have h4 := h.2.2.2
    simp [getDaysUntilPayment] at h4

/-- The descending monthly-cost comparator is transitive. -/
theorem costGe_trans : ∀ (a b c : Subscription),
    decide (convertToMonthly b.cost b.billingCycle ≤
            convertToMonthly a.cost a.billingCycle) = true →
    decide (convertToMonthly c.cost c.billingCycle ≤
            convertToMonthly b.cost b.billingCycle) = true →
    decide (convertToMonthly c.cost c.billingCycle ≤
            convertToMonthly a.cost a.billingCycle) = true := by
  intro a b c hab hbc
  simp only [decide_eq_true_eq] at *
  exact le_trans hbc hab

/-- The descending monthly-cost comparator is total. -/
theorem costGe_total : ∀ (a b : Subscription),
    (decide (convertToMonthly b.cost b.billingCycle ≤
             convertToMonthly a.cost a.billingCycle) ||
     decide (convertToMonthly a.cost a.billingCycle ≤
             convertToMonthly b.cost b.billingCycle)) = true := by
  intro a b
  simp only [Bool.or_eq_true, decide_eq_true_eq]
  exact le_total _ _

/-- Claim C8: `topByMonthlyCost(records, n)` returns at most `n` records,
ordered descending by monthly-equivalent cost, and the records of any fixed
monthly-equivalent cost appear as a subsequence of the equally-priced
records of the input in their original relative order (stable sort). -/
theorem c8_top_by_monthly_cost (subs : List Subscription) (n : Nat) :
    (sortedSubscriptions subs n).length ≤ n ∧
    (sortedSubscriptions subs n).Pairwise
      (fun a b => convertToMonthly b.cost b.billingCycle ≤
                  convertToMonthly a.cost a.billingCycle) ∧
    (∀ v : ℚ,
      ((sortedSubscriptions subs n).filter
          (fun s => convertToMonthly s.cost s.billingCycle == v)).Sublist
        (subs.filter (fun s => convertToMonthly s.cost s.billingCycle == v))) := by
  refine ⟨List.length_take_le n _, ?_, ?_⟩
  · have hs := List.sorted_mergeSort costGe_trans costGe_total (activeSubscriptions subs)
    have ht := List.Pairwise.sublist (List.take_sublist n _) hs
    exact ht.imp (fun h => by simpa using h)
  · intro v
    have hcls : ((activeSubscriptions subs).filter
        (fun s => convertToMonthly s.cost s.billingCycle == v)).Pairwise
        (fun a b =>
          decide (convertToMonthly b.cost b.billingCycle ≤
                  convertToMonthly a.cost a.billingCycle) = true) := by
      apply List.pairwise_of_forall_mem_list
      intro a ha b hb
      have ha2 := (List.mem_filter.mp ha).2
      have hb2 := (List.mem_filter.mp hb).2
      have ha3 : convertToMonthly a.cost a.billingCycle = v := by simpa using ha2
      have hb3 : convertToMonthly b.cost b.billingCycle = v := by simpa using hb2
      simp [ha3, hb3]
    have hsub : ((activeSubscriptions subs).filter
        (fun s => convertToMonthly s.cost s.billingCycle == v)).Sublist
        ((activeSubscriptions subs).mergeSort
          (fun a b =>
            decide (convertToMonthly b.cost b.billingCycle ≤
                    convertToMonthly a.cost a.billingCycle))) :=
      List.sublist_mergeSort costGe_trans costGe_total hcls (List.filter_sublist _)
    have hsub2 := hsub.filter (fun s => convertToMonthly s.cost s.billingCycle == v)
    rw [List.filter_eq_self.mpr (fun a ha => (List.mem_filter.mp ha).2)] at hsub2
    have hperm := (List.mergeSort_perm (activeSubscriptions subs)
        (fun a b =>
          decide (convertToMonthly b.cost b.billingCycle ≤
                  convertToMonthly a.cost a.billingCycle))).filter
        (fun s => convertToMonthly s.cost s.billingCycle == v)
    have heq := hsub2.eq_of_length hperm.length_eq.symm
    have hfinal : ((sortedSubscriptions subs n).filter
        (fun s => convertToMonthly s.cost s.billingCycle == v)).Sublist
        ((activeSubscriptions subs).filter
          (fun s => convertToMonthly s.cost s.billingCycle == v)) := by
      have htake := (List.take_sublist n
        ((activeSubscriptions subs).mergeSort
          (fun a b =>
            decide (convertToMonthly b.cost b.billingCycle ≤
                    convertToMonthly a.cost a.billingCycle)))).filter
        (fun s => convertToMonthly s.cost s.billingCycle == v)
      rw [← heq] at htake
      exact htake
    exact hfinal.trans
      ((List.filter_sublist subs).filter
        (fun s => convertToMonthly s.cost s.billingCycle == v))

/-- Looking up the updated id after the row-replacing write returns the
updated row. -/
theorem find?_map_update (store : List DbRecord) (id : Nat) (u r : DbRecord)
    (hfind : store.find? (fun x => x.id == id) = some r)
    (hu : (u.id == id) = true) :
    (store.map (fun x => if x.id == id then u else x)).find?
        (fun x => x.id == id) = some u := by
  induction store with
  | nil => simp at hfind
  | cons x xs ih =>
    cases hx : (x.id == id) with
    | true =>
      simp only [List.map_cons, if_pos hx]
      exact List.find?_cons_of_pos _ hu
    | false =>
      rw [List.find?_cons_of_neg _ (by simp [hx])] at hfind
      simp only [List.map_cons, if_neg (by simp [hx] : ¬(x.id == id) = true)]
      rw [List.find?_cons_of_neg _ (by simp [hx])]
      exact ih hfind

/-- Claim C3: for a stored record whose status is cancelled, an update
requesting status active is rejected with `INVALID_STATUS_TRANSITION` and an
error message enumerating the permitted next statuses by label
(`Expired`), leaving the table unchanged; an update requesting status
expired is accepted and the updated row is persisted. -/
theorem c3_cancelled_update_transitions
    (store : List DbRecord) (id : Nat) (now : String) (r : DbRecord)
    (hfind : store.find? (fun x => x.id == id) = some r)
    (hst : r.status = "cancelled") :
    putSubscription store id { status := some (JsField.strVal "active") } now
      = (store, Except.error
          ⟨"Status cannot change from Cancelled to Active. Allowed next statuses: Expired",
           "INVALID_STATUS_TRANSITION"⟩) ∧
    (putSubscription store id { status := some (JsField.strVal "expired") } now).2
      = Except.ok { r with status := "expired", updatedAt := now } ∧
    (putSubscription store id { status := some (JsField.strVal "expired") } now).1.find?
        (fun x => x.id == id)
      = some { r with status := "expired", updatedAt := now } := by
  have hact : putApplyUpdates r { status := some (JsField.strVal "active") } now
      = Except.error
          ⟨"Status cannot change from Cancelled to Active. Allowed next statuses: Expired",
           "INVALID_STATUS_TRANSITION"⟩ := by
    simp [putApplyUpdates, hst,
      show normalizeStatus "active" = some "active" from rfl,
      show canTransitionSubscriptionStatus "cancelled" "active" = false from rfl]
    rfl
  have hexp : putApplyUpdates r { status := some (JsField.strVal "expired") } now
      = Except.ok { r with status := "expired", updatedAt := now } := by
    simp [putApplyUpdates, hst,
      show normalizeStatus "expired" = some "expired" from rfl,
      show canTransitionSubscriptionStatus "cancelled" "expired" = true from rfl]
    rfl
  refine ⟨?_, ?_, ?_⟩
  · simp [putSubscription, hfind, hact]
  · simp [putSubscription, hfind, hexp]
  · simp only [putSubscription, hfind, hexp]
    exact find?_map_update store id _ r hfind
      (by simpa using List.find?_some hfind)

/-- Witness for C3: a concrete one-row table holding a cancelled record
rejects `cancelled → active` and persists `cancelled → expired`. -/
theorem c3_witness :
    putSubscription
        [⟨1, "Netflix", 15, "monthly", "2024-01-15", none, none, "cancelled", "t0", "t0"⟩]
        1 { status := some (JsField.strVal "active") } "t1"
      = ([⟨1, "Netflix", 15, "monthly", "2024-01-15", none, none, "cancelled", "t0", "t0"⟩],
         Except.error
           ⟨"Status cannot change from Cancelled to Active. Allowed next statuses: Expired",
            "INVALID_STATUS_TRANSITION"⟩) ∧
    (putSubscription
        [⟨1, "Netflix", 15, "monthly", "2024-01-15", none, none, "cancelled", "t0", "t0"⟩]
        1 { status := some (JsField.strVal "expired") } "t1").2
      = Except.ok
          ⟨1, "Netflix", 15, "monthly", "2024-01-15", none, none, "expired", "t0", "t1"⟩ ∧
    (putSubscription
        [⟨1, "Netflix", 15, "monthly", "2024-01-15", none, none, "cancelled", "t0", "t0"⟩]
        1 { status := some (JsField.strVal "expired") } "t1").1.find?
        (fun x => x.id == 1)
      = some ⟨1, "Netflix", 15, "monthly", "2024-01-15", none, none, "expired", "t0", "t1"⟩ :=
  c3_cancelled_update_transitions
    [⟨1, "Netflix", 15, "monthly", "2024-01-15", none, none, "cancelled", "t0", "t0"⟩]
    1 "t1" ⟨1, "Netflix", 15, "monthly", "2024-01-15", none, none, "cancelled", "t0", "t0"⟩
    rfl rfl

/-- Claim C6 (counterexample): the claim quantifies over every create input,
but the handler checks the name before the cost — a create input missing
both fails with `MISSING_NAME`, not `MISSING_COST`. -/
theorem c6_counterexample_missing_name_masks_missing_cost :
    ({} : PostBody).cost = none ∧
    postSubscription [] {} "2024-01-01T00:00:00.000Z" 1
      = ([], Except.error ⟨"Name is required", "MISSING_NAME"⟩) :=
  ⟨rfl, rfl⟩

/-- Claim C6 (amended): for a create input whose name passes validation, a
missing cost fails with `MISSING_COST`; if additionally the billing-cycle
and next-payment-date presence checks pass, a cost that is present but not
parseable (`parseFloat` gave `NaN`) or parses to a value ≤ 0 fails with
`INVALID_COST`; in every such case the table is unchanged — nothing is
persisted and no coerced value is stored. -/
theorem c6_cost_validation
    (store : List DbRecord) (body : PostBody) (now : String) (newId : Nat)
    (name : String) (h1 : body.name = some name) (h2 : jsTrim name ≠ "") :
    (body.cost = none →
      postSubscription store body now newId
        = (store, Except.error ⟨"Cost is required", "MISSING_COST"⟩)) ∧
    (∀ (bc : String) (d : DateInput),
      body.billingCycle = some bc → jsTrim bc ≠ "" →
      body.nextPaymentDate = some d → jsTrim d.raw ≠ "" →
      ((body.cost = some none →
        postSubscription store body now newId
          = (store, Except.error ⟨"Cost must be a positive number", "INVALID_COST"⟩)) ∧
       (∀ v : ℚ, body.cost = some (some v) → v ≤ 0 →
        postSubscription store body now newId
          = (store, Except.error ⟨"Cost must be a positive number", "INVALID_COST"⟩)))) := by
  constructor
  · intro hc
    simp [postSubscription, validatePostBody, h1, h2, hc, Except.instMonad,
      Except.bind, throw, throwThe, MonadExceptOf.throw, pure, Except.pure, Bind.bind]
  · intro bc d hbc hbc2 hd hd2
    constructor
    · intro hc
      simp [postSubscription, validatePostBody, h1, h2, hbc, hbc2, hd, hd2, hc,
        Except.instMonad, Except.bind, throw, throwThe, MonadExceptOf.throw,
        pure, Except.pure, Bind.bind]
    · intro v hc hv
      simp [postSubscription, validatePostBody, h1, h2, hbc, hbc2, hd, hd2, hc, hv,
        Except.instMonad, Except.bind, throw, throwThe, MonadExceptOf.throw,
        pure, Except.pure, Bind.bind]

/-- Witness for C6 (amended): a concrete create input with a valid name,
billing cycle and date but `cost: -5` is rejected with `INVALID_COST` and
persists nothing. -/
theorem c6_witness :
    postSubscription []
      { name := some "Netflix", cost := some (some (-5)),
        billingCycle := some "monthly",
        nextPaymentDate := some ⟨"2024-01-15", some 19737⟩ } "t0" 1
      = ([], Except.error ⟨"Cost must be a positive number", "INVALID_COST"⟩) :=
  (((c6_cost_validation []
      { name := some "Netflix", cost := some (some (-5)),
        billingCycle := some "monthly",
        nextPaymentDate := some ⟨"2024-01-15", some 19737⟩ } "t0" 1
      "Netflix" rfl (by decide)).2 "monthly" ⟨"2024-01-15", some 19737⟩
      rfl (by decide) rfl (by decide)).2) (-5) rfl (by norm_num)

end Substrack
